import Mathlib

/-
Verification of the pipeline execution and state-management core of the
caption-extractor repository.

Shallow embedding notes:
* `pipeline_state_manager.py` keeps per-item state as a nested dict; we embed
  it as the structure `PState` below.  Step statuses are persisted as raw
  strings (the `.value` of the `StepStatus` enum) and re-parsed on read via
  `StepStatus(status_str)`; we therefore keep the `status` field of a step
  record as a `String` and model the parse by `statusOfString`.
* Wall-clock timestamps (`datetime.now().isoformat()`) are modelled as
  presence flags (`Option Unit`): the claims under study either ignore
  timestamps or explicitly exclude them.  Step durations
  (`time.perf_counter()` differences) are part of the external environment
  and are supplied per step by the `Engines` record, so that "identical
  engine responses" fixes them.
* External engines (OCR, vision model, text agent, translator, metadata
  combiner) are modelled as fields of `Engines`: each is the outcome of the
  corresponding call, `Except String _` for a raised exception, and `Option`
  payloads model Python truthiness (`None`/empty dict is `none`).
* Each step processor additionally returns the list of engine invocations it
  performed (ghost instrumentation used to state "zero engine calls").
-/

namespace CaptionExtractor

/-- Step status enumeration (`StepStatus` in `pipeline_state_manager.py`). -/
inductive StepStatus
  | pending
  | running
  | completed
  | failed
  | skipped
deriving DecidableEq, Repr

/-- The `.value` string of a `StepStatus` member. -/
def StepStatus.toValue : StepStatus → String
  | .pending => "pending"
  | .running => "running"
  | .completed => "completed"
  | .failed => "failed"
  | .skipped => "skipped"

/-- The `StepStatus(status_str)` enum constructor: `none` models the
`ValueError` raised on an unknown status string. -/
def statusOfString : String → Option StepStatus
  | "pending" => some .pending
  | "running" => some .running
  | "completed" => some .completed
  | "failed" => some .failed
  | "skipped" => some .skipped
  | _ => none

/-- The five pipeline steps, in the order of
`PipelineStateManager.pipeline_steps`. -/
inductive Step
  | ocr_processing
  | image_agent_analysis
  | text_agent_processing
  | translation
  | metadata_combination
deriving DecidableEq, Repr, Fintype

/-- `PipelineStateManager.pipeline_steps`: the fixed step order. -/
def pipeline_steps : List Step :=
  [.ocr_processing, .image_agent_analysis, .text_agent_processing,
   .translation, .metadata_combination]

/-- Payload produced by `OCRProcessor.format_extracted_text`: the fields the
core reads (`full_text` in the text-agent step, `total_elements` for
logging).  The remaining fields are opaque to the core and folded into
`rest_tag`. -/
structure OcrData where
  full_text : String
  total_elements : Nat
  rest_tag : Nat := 0
deriving DecidableEq, Repr

/-- Payload returned by `ImageAgent.analyze_image`: the core reads only the
`text` field; the rest is opaque (`rest_tag`). -/
structure VlData where
  text : String
  rest_tag : Nat := 0
deriving DecidableEq, Repr

/-- Payload returned by `TextAgent.process_text`: the translation step reads
`needTranslation`, `primary_text` and `corrected_text`; the rest is opaque. -/
structure TextProc where
  needTranslation : Bool
  primary_text : Option String
  corrected_text : String
  rest_tag : Nat := 0
deriving DecidableEq, Repr

/-- Payload returned by `TranslatorAgent.translate_to_english`; opaque to the
core. -/
structure TransResult where
  rest_tag : Nat := 0
deriving DecidableEq, Repr

/-- Payload returned by `MetadataCombiner.combine_metadata`; opaque to the
core. -/
structure CombinedMeta where
  rest_tag : Nat := 0
deriving DecidableEq, Repr

/-- A step's opaque output payload, as stored in `steps[step]['data']`. -/
inductive StepData
  | ocr (d : OcrData)
  | vl (d : VlData)
  | text (d : TextProc)
  | trans (d : TransResult)
  | meta (d : CombinedMeta)
deriving DecidableEq, Repr

/-- One entry of `state['pipeline_status']['steps']`.  The status is kept as
the raw persisted string.  Timestamps are presence flags (see header). -/
structure StepRecord where
  status : String
  started_at : Option Unit
  completed_at : Option Unit
  duration : Option Nat
  error : Option String
  data : Option StepData
deriving DecidableEq, Repr

/-- The pristine step record installed by `create_initial_state` and
`reset_failed_step`. -/
def initialStepRecord : StepRecord :=
  { status := "pending", started_at := none, completed_at := none,
    duration := none, error := none, data := none }

/-- The `steps` mapping of a pipeline state.  A field holds `none` when the
persisted document has no entry for that step (a `KeyError` case in the
Python dict). -/
structure StepsMap where
  ocr : Option StepRecord
  vl : Option StepRecord
  text : Option StepRecord
  trans : Option StepRecord
  meta : Option StepRecord
deriving DecidableEq, Repr

/-- Dict lookup `state['pipeline_status']['steps'][step]`. -/
def StepsMap.get (m : StepsMap) : Step → Option StepRecord
  | .ocr_processing => m.ocr
  | .image_agent_analysis => m.vl
  | .text_agent_processing => m.text
  | .translation => m.trans
  | .metadata_combination => m.meta

/-- Dict assignment `state['pipeline_status']['steps'][step] = r` (creates
the entry when absent, as `reset_failed_step` does). -/
def StepsMap.set (m : StepsMap) (st : Step) (r : StepRecord) : StepsMap :=
  match st with
  | .ocr_processing => { m with ocr := some r }
  | .image_agent_analysis => { m with vl := some r }
  | .text_agent_processing => { m with text := some r }
  | .translation => { m with trans := some r }
  | .metadata_combination => { m with meta := some r }

/-- In-place mutation of an existing entry, e.g.
`state['pipeline_status']['steps'][step]['status'] = ...`.  When the entry is
absent the Python code would raise `KeyError`; in the modelled flows the
mutating operations are only reached on states whose entries all exist
(created by `create_initial_state`), so the absent case is left as a
no-op. -/
def StepsMap.modify (m : StepsMap) (st : Step) (f : StepRecord → StepRecord) :
    StepsMap :=
  match m.get st with
  | some r => m.set st (f r)
  | none => m

/-- The `results` mapping of a pipeline state (`create_initial_state`):
one slot per step plus the never-written `processing_time` slot. -/
structure Results where
  ocr_data : Option OcrData
  vl_model_data : Option VlData
  text_processing : Option TextProc
  translation_result : Option TransResult
  combined_metadata : Option CombinedMeta
  processing_time : Option Nat
deriving DecidableEq, Repr

/-- The `metadata` block of a pipeline state. -/
structure StateMeta where
  total_processing_time : Nat
  failed_steps : List Step
  retries : Nat
deriving DecidableEq, Repr

/-- The per-item Pipeline State document
(`PipelineStateManager.create_initial_state` shape). -/
structure PState where
  image_path : String
  created_at : Option Unit
  updated_at : Option Unit
  overall_status : String
  current_step : Option Step
  steps : StepsMap
  results : Results
  metadata : StateMeta
deriving DecidableEq, Repr

/-- `PipelineStateManager.create_initial_state`. -/
def create_initial_state (image_path : String) : PState :=
  { image_path := image_path
    created_at := some ()
    updated_at := some ()
    overall_status := "pending"
    current_step := some .ocr_processing
    steps :=
      { ocr := some initialStepRecord, vl := some initialStepRecord,
        text := some initialStepRecord, trans := some initialStepRecord,
        meta := some initialStepRecord }
    results :=
      { ocr_data := none, vl_model_data := none, text_processing := none,
        translation_result := none, combined_metadata := none,
        processing_time := none }
    metadata := { total_processing_time := 0, failed_steps := [], retries := 0 } }

/-- `PipelineStateManager.get_step_status`: parse the stored status string,
returning `PENDING` on a missing entry (`KeyError`) or an unknown status
string (`ValueError`). -/
def get_step_status (s : PState) (st : Step) : StepStatus :=
  match s.steps.get st with
  | some r => (statusOfString r.status).getD .pending
  | none => .pending

/-- `PipelineStateManager.is_step_completed`. -/
def is_step_completed (s : PState) (st : Step) : Bool :=
  get_step_status s st == .completed

/-- `PipelineStateManager.is_step_failed`. -/
def is_step_failed (s : PState) (st : Step) : Bool :=
  get_step_status s st == .failed

/-- `PipelineStateManager.should_skip_step`. -/
def should_skip_step (s : PState) (st : Step) (force_reprocess : Bool) : Bool :=
  if force_reprocess then false
  else get_step_status s st == .completed

/-- `PipelineStateManager.mark_step_running`. -/
def mark_step_running (s : PState) (st : Step) : PState :=
  { s with
    steps := s.steps.modify st (fun r =>
      { r with status := StepStatus.running.toValue, started_at := some () })
    current_step := some st
    overall_status := "running" }

/-- Write a completed step's payload into the `results` slot named by
`PipelineStateManager._get_result_key`. -/
def Results.store (r : Results) (st : Step) (d : StepData) : Results :=
  match st, d with
  | .ocr_processing, .ocr v => { r with ocr_data := some v }
  | .image_agent_analysis, .vl v => { r with vl_model_data := some v }
  | .text_agent_processing, .text v => { r with text_processing := some v }
  | .translation, .trans v => { r with translation_result := some v }
  | .metadata_combination, .meta v => { r with combined_metadata := some v }
  | _, _ => r

/-- `PipelineStateManager.mark_step_completed`: status, completion time and
duration always; `data` is stored in both `results[key]` and
`steps[step]['data']` only when it is not `None`. -/
def mark_step_completed (s : PState) (st : Step) (data : Option StepData)
    (duration : Option Nat) : PState :=
  let s :=
    { s with
      steps := s.steps.modify st (fun r =>
        { r with status := StepStatus.completed.toValue,
                 completed_at := some (),
                 duration := match duration with
                             | some d => some d
                             | none => r.duration }) }
  match data with
  | some d =>
      { s with
        results := s.results.store st d
        steps := s.steps.modify st (fun r => { r with data := some d }) }
  | none => s

/-- `PipelineStateManager.mark_step_failed`. -/
def mark_step_failed (s : PState) (st : Step) (error : String) : PState :=
  { s with
    steps := s.steps.modify st (fun r =>
      { r with status := StepStatus.failed.toValue, error := some error,
               completed_at := some () })
    overall_status := "failed"
    metadata :=
      { s.metadata with
        failed_steps :=
          if st ∈ s.metadata.failed_steps then s.metadata.failed_steps
          else s.metadata.failed_steps ++ [st] } }

/-- `PipelineStateManager.mark_step_skipped`: the skip reason is recorded in
the `error` slot, prefixed with `Skipped: `, when a (truthy) reason is
given. -/
def mark_step_skipped (s : PState) (st : Step) (reason : Option String) : PState :=
  { s with
    steps := s.steps.modify st (fun r =>
      { r with status := StepStatus.skipped.toValue, completed_at := some (),
               error := match reason with
                        | some rs =>
                            if rs = "" then r.error
                            else some ("Skipped: " ++ rs)
                        | none => r.error }) }

/-- The per-step contribution to `total_processing_time`:
`if step_data.get('duration'): total += ...` (a `None` or zero duration
contributes nothing; a missing entry is unreachable in the modelled flows). -/
def stepDuration (m : StepsMap) (st : Step) : Nat :=
  match m.get st with
  | some r => r.duration.getD 0
  | none => 0

/-- `PipelineStateManager.mark_pipeline_completed`: unconditionally sets
`overall_status = 'completed'`, clears `current_step`, and recomputes
`total_processing_time` as the sum of recorded step durations. -/
def mark_pipeline_completed (s : PState) : PState :=
  { s with
    overall_status := "completed"
    current_step := none
    metadata :=
      { s.metadata with
        total_processing_time :=
          (pipeline_steps.map (stepDuration s.steps)).sum } }

/-- `PipelineStateManager.reset_failed_step`: reinstalls the pristine record
and removes the step from `failed_steps`. -/
def reset_failed_step (s : PState) (st : Step) : PState :=
  { s with
    steps := s.steps.set st initialStepRecord
    metadata :=
      { s.metadata with
        failed_steps := s.metadata.failed_steps.filter (· ≠ st) } }

/-- `PipelineStateManager.get_next_pending_step`. -/
def get_next_pending_step (s : PState) : Option Step :=
  pipeline_steps.find? (fun st => get_step_status s st == .pending)

/-- Ghost trace of external engine invocations, used to state "zero engine
calls" properties. -/
inductive EngineCall
  | ocr
  | vision
  | text
  | translate
  | combine
deriving DecidableEq, Repr

/-- The external engine environment for one item: for each backing engine the
outcome the core would observe when invoking it.  `Except.error` models a
raised exception (including the `FileNotFoundError` pre-check of the OCR
step); an `Option` payload of `none` models a falsy (`None`/empty) return
value.  `dur` supplies each step's measured elapsed duration. -/
structure Engines where
  ocrRes : Except String OcrData
  vlRes : Except String (Option VlData)
  textRes : String → Option VlData → Except String (Option TextProc)
  transRes : String → Except String (Option TransResult)
  combineRes : Option OcrData → Option VlData → Option TextProc →
    Option TransResult → Nat → Except String CombinedMeta
  dur : Step → Nat

/-- Result of one step-processor call: the `(success, updated_state)` pair of
the Python contract, plus the ghost engine-call trace. -/
structure StepOut where
  ok : Bool
  state : PState
  calls : List EngineCall
deriving DecidableEq, Repr

/-- `StepProcessor.process_ocr_step`.  `format_extracted_text` always returns
a non-empty dict, so an `ok` OCR outcome always carries a payload. -/
def process_ocr_step (eng : Engines) (state : PState)
    (skip_if_completed : Bool) : StepOut :=
  let step_name := Step.ocr_processing
  if skip_if_completed && is_step_completed state step_name then
    { ok := true,
      state := mark_step_skipped state step_name (some "Already completed"),
      calls := [] }
  else
    let state := mark_step_running state step_name
    match eng.ocrRes with
    | .error e =>
        { ok := false, state := mark_step_failed state step_name e,
          calls := [.ocr] }
    | .ok ocr_data =>
        { ok := true,
          state := mark_step_completed state step_name
            (some (.ocr ocr_data)) (some (eng.dur step_name)),
          calls := [.ocr] }

/-- `StepProcessor.process_image_agent_step`.  A falsy engine return value
makes the processor itself raise `Image agent returned no results`, which the
surrounding handler converts to a failed step. -/
def process_image_agent_step (eng : Engines) (state : PState)
    (skip_if_completed : Bool) : StepOut :=
  let step_name := Step.image_agent_analysis
  if skip_if_completed && is_step_completed state step_name then
    { ok := true,
      state := mark_step_skipped state step_name (some "Already completed"),
      calls := [] }
  else
    let state := mark_step_running state step_name
    match eng.vlRes with
    | .error e =>
        { ok := false, state := mark_step_failed state step_name e,
          calls := [.vision] }
    | .ok none =>
        { ok := false,
          state := mark_step_failed state step_name
            "Image agent returned no results",
          calls := [.vision] }
    | .ok (some vl_model_data) =>
        { ok := true,
          state := mark_step_completed state step_name
            (some (.vl vl_model_data)) (some (eng.dur step_name)),
          calls := [.vision] }

/-- The text input gathered by the text-agent step:
`base_text = ocr_text or vision_text` with empty-string defaults. -/
def baseText (s : PState) : String :=
  let ocr_text := match s.results.ocr_data with
                  | some d => d.full_text
                  | none => ""
  let vision_text := match s.results.vl_model_data with
                     | some d => d.text
                     | none => ""
  if ocr_text = "" then vision_text else ocr_text

/-- `StepProcessor.process_text_agent_step`: missing input skips with reason
`No text available`; a falsy engine return raises
`Text agent returned no results` (recorded as a failure). -/
def process_text_agent_step (eng : Engines) (state : PState)
    (skip_if_completed : Bool) : StepOut :=
  let step_name := Step.text_agent_processing
  if skip_if_completed && is_step_completed state step_name then
    { ok := true,
      state := mark_step_skipped state step_name (some "Already completed"),
      calls := [] }
  else
    let state := mark_step_running state step_name
    let base_text := baseText state
    if base_text = "" then
      { ok := true,
        state := mark_step_skipped state step_name (some "No text available"),
        calls := [] }
    else
      match eng.textRes base_text state.results.vl_model_data with
      | .error e =>
          { ok := false, state := mark_step_failed state step_name e,
            calls := [.text] }
      | .ok none =>
          { ok := false,
            state := mark_step_failed state step_name
              "Text agent returned no results",
            calls := [.text] }
      | .ok (some text_processing) =>
          { ok := true,
            state := mark_step_completed state step_name
              (some (.text text_processing)) (some (eng.dur step_name)),
            calls := [.text] }

/-- The translation step's text:
`text_processing.get('primary_text') or text_processing.get('corrected_text', '')`
(a `None` or empty `primary_text` falls back to `corrected_text`). -/
def primaryText (tp : TextProc) : String :=
  match tp.primary_text with
  | some t => if t = "" then tp.corrected_text else t
  | none => tp.corrected_text

/-- `StepProcessor.process_translation_step`: skips when the text-processing
result is absent, when its `needTranslation` flag is false, or when no
non-empty text is available; only otherwise invokes the translator. -/
def process_translation_step (eng : Engines) (state : PState)
    (skip_if_completed : Bool) : StepOut :=
  let step_name := Step.translation
  if skip_if_completed && is_step_completed state step_name then
    { ok := true,
      state := mark_step_skipped state step_name (some "Already completed"),
      calls := [] }
  else
    let state := mark_step_running state step_name
    match state.results.text_processing with
    | none =>
        { ok := true,
          state := mark_step_skipped state step_name
            (some "No text processing data"),
          calls := [] }
    | some text_processing =>
        let need_translation := text_processing.needTranslation
        let primary_text := primaryText text_processing
        if !need_translation || primary_text = "" then
          { ok := true,
            state := mark_step_skipped state step_name
              (some "Translation not needed"),
            calls := [] }
        else
          match eng.transRes primary_text with
          | .error e =>
              { ok := false, state := mark_step_failed state step_name e,
                calls := [.translate] }
          | .ok none =>
              { ok := false,
                state := mark_step_failed state step_name
                  "Translator returned no results",
                calls := [.translate] }
          | .ok (some translation_result) =>
              { ok := true,
                state := mark_step_completed state step_name
                  (some (.trans translation_result))
                  (some (eng.dur step_name)),
                calls := [.translate] }

/-- `StepProcessor.process_metadata_combination_step`.  The source's
skip-if-completed check is `if False:` ("Never skip metadata combination -
always regenerate"), so the skip branch is dead and the combiner is always
invoked; we keep the dead conditional verbatim. -/
def process_metadata_combination_step (eng : Engines) (state : PState)
    (skip_if_completed : Bool) : StepOut :=
  let step_name := Step.metadata_combination
  if (false : Bool) then
    { ok := true,
      state := mark_step_skipped state step_name (some "Already completed"),
      calls := [] }
  else
    let state := mark_step_running state step_name
    let proc_time := state.metadata.total_processing_time
    match eng.combineRes state.results.ocr_data state.results.vl_model_data
        state.results.text_processing state.results.translation_result
        proc_time with
    | .error e =>
        { ok := false, state := mark_step_failed state step_name e,
          calls := [.combine] }
    | .ok combined_metadata =>
        { ok := true,
          state := mark_step_completed state step_name
            (some (.meta combined_metadata)) (some (eng.dur step_name)),
          calls := [.combine] }

/-- A perfect single-item view of the State Store: `none` models a missing
persisted document.  Claims about read/write faults and on-disk atomicity are
handled by the separate file-operation model further below. -/
def load_or_create (store : Option PState) (image_path : String) : PState :=
  match store with
  | some s => s
  | none => create_initial_state image_path

/-- `PipelineStateManager.save_state` as seen by the orchestrators: refresh
`updated_at` on the state object (a dict mutation the caller keeps seeing)
and persist it.  Returns the new store content and the mutated state. -/
def save_state (store : Option PState) (s : PState) : Option PState × PState :=
  let s2 := { s with updated_at := some () }
  (some s2, s2)

/-- Per-run step enablement (`pipeline` config block); a flag here is the
conjunction of the config flag and the presence of the engine handle, e.g.
`self.enable_ocr and self.ocr_processor`. -/
structure PipelineConfig where
  enable_ocr : Bool
  enable_image_agent : Bool
  enable_text_agent : Bool
  enable_translation : Bool
deriving DecidableEq, Repr

/-- Outcome of one item-major pass over a single item: the returned success
flag, the final in-memory state, the final persisted document, and the ghost
engine-call trace. -/
structure PassResult where
  success : Bool
  state : PState
  store : Option PState
  calls : List EngineCall
deriving DecidableEq, Repr

/-- The `Step 1: OCR` block of `ImageProcessor.process_single_image`:
if the step is enabled (and its engine handle present), run the processor,
save, and conjoin the step's success flag. -/
def ocr_stage (cfg : PipelineConfig) (eng : Engines) (pr : PassResult) :
    PassResult :=
  if cfg.enable_ocr then
    let o := process_ocr_step eng pr.state true
    let sv := save_state pr.store o.state
    PassResult.mk (pr.success && o.ok) sv.2 sv.1 (pr.calls ++ o.calls)
  else pr

/-- The `Step 2: Image Agent` block of `process_single_image`. -/
def image_agent_stage (cfg : PipelineConfig) (eng : Engines) (pr : PassResult) :
    PassResult :=
  if cfg.enable_image_agent then
    let o := process_image_agent_step eng pr.state true
    let sv := save_state pr.store o.state
    PassResult.mk (pr.success && o.ok) sv.2 sv.1 (pr.calls ++ o.calls)
  else pr

/-- The `Step 3: Text Agent` block of `process_single_image`. -/
def text_agent_stage (cfg : PipelineConfig) (eng : Engines) (pr : PassResult) :
    PassResult :=
  if cfg.enable_text_agent then
    let o := process_text_agent_step eng pr.state true
    let sv := save_state pr.store o.state
    PassResult.mk (pr.success && o.ok) sv.2 sv.1 (pr.calls ++ o.calls)
  else pr

/-- The `Step 4: Translation` block of `process_single_image`. -/
def translation_stage (cfg : PipelineConfig) (eng : Engines) (pr : PassResult) :
    PassResult :=
  if cfg.enable_translation then
    let o := process_translation_step eng pr.state true
    let sv := save_state pr.store o.state
    PassResult.mk (pr.success && o.ok) sv.2 sv.1 (pr.calls ++ o.calls)
  else pr

/-- The `Step 5: Metadata Combination` block of `process_single_image`: the
aggregation step is unconditional, then the pipeline is unconditionally
marked completed and saved once more. -/
def metadata_stage (eng : Engines) (pr : PassResult) : PassResult :=
  let o := process_metadata_combination_step eng pr.state true
  let success := pr.success && o.ok
  let sv := save_state pr.store o.state
  let s6 := mark_pipeline_completed sv.2
  let sv6 := save_state sv.1 s6
  PassResult.mk success sv6.2 sv6.1 (pr.calls ++ o.calls)

/-- `ImageProcessor.process_single_image` (item-major orchestration of one
item): load-or-create the state, run each enabled step in fixed order saving
after every step, then unconditionally `mark_pipeline_completed` and save
again. -/
def process_single_image (cfg : PipelineConfig) (eng : Engines)
    (store0 : Option PState) (image_path : String) : PassResult :=
  metadata_stage eng
    (translation_stage cfg eng
      (text_agent_stage cfg eng
        (image_agent_stage cfg eng
          (ocr_stage cfg eng
            (PassResult.mk true (load_or_create store0 image_path) store0 [])))))

/-- `BatchProcessorBySteps._process_ocr_for_image` restricted to the
persisted document of one item: load-or-create, run the step, save. -/
def ocr_for_image (eng : Engines) (store : Option PState)
    (image_path : String) : Option PState :=
  let s := load_or_create store image_path
  let o := process_ocr_step eng s true
  (save_state store o.state).1

/-- `BatchProcessorBySteps._process_image_agent_for_image` (per-item store
effect). -/
def image_agent_for_image (eng : Engines) (store : Option PState)
    (image_path : String) : Option PState :=
  let s := load_or_create store image_path
  let o := process_image_agent_step eng s true
  (save_state store o.state).1

/-- `BatchProcessorBySteps._process_text_agent_for_image` (per-item store
effect). -/
def text_agent_for_image (eng : Engines) (store : Option PState)
    (image_path : String) : Option PState :=
  let s := load_or_create store image_path
  let o := process_text_agent_step eng s true
  (save_state store o.state).1

/-- `BatchProcessorBySteps._process_translation_for_image` (per-item store
effect). -/
def translation_for_image (eng : Engines) (store : Option PState)
    (image_path : String) : Option PState :=
  let s := load_or_create store image_path
  let o := process_translation_step eng s true
  (save_state store o.state).1

/-- `BatchProcessorBySteps._process_metadata_for_image` (per-item store
effect): runs the combination step, then `mark_pipeline_completed`, then
saves. -/
def metadata_for_image (eng : Engines) (store : Option PState)
    (image_path : String) : Option PState :=
  let s := load_or_create store image_path
  let o := process_metadata_combination_step eng s true
  let s2 := mark_pipeline_completed o.state
  (save_state store s2).1

/-- `BatchProcessorBySteps.process_images_batch_by_steps` projected onto a
single item's persisted document: within each step the items are independent
(each worker touches only its own item's document), so the effect of the
whole step-major batch on one item is the in-order composition of the
per-step wrappers for that item. -/
def process_images_batch_by_steps_single (cfg : PipelineConfig) (eng : Engines)
    (store0 : Option PState) (image_path : String) : Option PState :=
  let st1 := if cfg.enable_ocr then ocr_for_image eng store0 image_path
             else store0
  let st2 := if cfg.enable_image_agent then
               image_agent_for_image eng st1 image_path
             else st1
  let st3 := if cfg.enable_text_agent then
               text_agent_for_image eng st2 image_path
             else st2
  let st4 := if cfg.enable_translation then
               translation_for_image eng st3 image_path
             else st3
  metadata_for_image eng st4 image_path

/-- On-disk content of one persisted document location.  `truncated` is the
content observed after `open(path, 'w')` has truncated the file but before
`yaml.dump` has finished writing (also what a crashed or errored save leaves
behind); `yaml s` is a fully written document. -/
inductive DocContent
  | truncated
  | yaml (s : PState)
deriving DecidableEq, Repr

/-- A primitive file operation performed by `save_state`. -/
inductive FsOp
  | truncateOpen (path : String)
  | writeAll (path : String) (s : PState)
deriving DecidableEq, Repr

/-- The file operations `PipelineStateManager.save_state` performs at its
target location, in order: `state['updated_at'] = datetime.now()...` happens
before any write, then `open(yaml_path, 'w')` truncates the destination in
place, then `yaml.dump` writes the full document.  There is no
write-to-temp-then-rename. -/
def save_state_fs_ops (yaml_path : String) (s : PState) : List FsOp :=
  [.truncateOpen yaml_path, .writeAll yaml_path { s with updated_at := some () }]

/-- Effect of one file operation on the file system (keyed by path). -/
def applyFsOp (fs : String → Option DocContent) (op : FsOp) :
    String → Option DocContent :=
  match op with
  | .truncateOpen p => fun q => if q = p then some .truncated else fs q
  | .writeAll p s => fun q => if q = p then some (.yaml s) else fs q

/-- Run a list of file operations in order. -/
def runFsOps (fs : String → Option DocContent) (ops : List FsOp) :
    String → Option DocContent :=
  ops.foldl applyFsOp fs

/-- `PipelineStateManager.load_state` over the file system: a missing file
returns `None`; any exception while reading/parsing an existing file is
caught and also returns `None` (a truncated document fails to parse, or
parses to a falsy value). -/
def load_state_fs (fs : String → Option DocContent) (yaml_path : String) :
    Option PState :=
  match fs yaml_path with
  | none => none
  | some .truncated => none
  | some (.yaml s) => some s

/-- One collected per-item outcome of the item-major batch, as delivered by
`future.result()` plus the error lookup of `process_images_batch`:
`error` is `result_data.get('error') if not success else None`. -/
structure ItemOutcome where
  image : String
  success : Bool
  time : ℚ
  error : Option String
deriving DecidableEq, Repr

/-- One entry of `processing_stats['errors']`. -/
structure ErrEntry where
  image : String
  error : String
  time : ℚ
deriving DecidableEq, Repr

/-- The mutable `processing_stats` block of `ImageProcessor`. -/
structure Stats where
  total_images : Nat
  processed_images : Nat
  failed_images : Nat
  total_time : ℚ
  processing_times : List ℚ
  errors : List ErrEntry
deriving DecidableEq, Repr

/-- `ImageProcessor._update_stats` for one collected outcome: counts and the
time list always grow; a failed outcome with a truthy error message appends
an error entry. -/
def update_stats (st : Stats) (o : ItemOutcome) : Stats :=
  let st :=
    { st with
      processed_images := st.processed_images + 1
      total_time := st.total_time + o.time
      processing_times := st.processing_times ++ [o.time] }
  if o.success then st
  else
    let st := { st with failed_images := st.failed_images + 1 }
    match o.error with
    | some e =>
        if e = "" then st
        else { st with errors := st.errors ++ [ErrEntry.mk o.image e o.time] }
    | none => st

/-- The zeroed statistics installed at the start of `process_images_batch`. -/
def init_stats (total : Nat) : Stats :=
  { total_images := total, processed_images := 0, failed_images := 0,
    total_time := 0, processing_times := [], errors := [] }

/-- Fold one element into a running optional minimum. -/
def minQStep (x : ℚ) : Option ℚ → Option ℚ
  | none => some x
  | some m => some (min x m)

/-- Fold one element into a running optional maximum. -/
def maxQStep (x : ℚ) : Option ℚ → Option ℚ
  | none => some x
  | some m => some (max x m)

/-- Minimum of a list of rationals, `none` on the empty list
(`min(stats['processing_times'])`). -/
def listMinQ : List ℚ → Option ℚ
  | [] => none
  | x :: xs => minQStep x (listMinQ xs)

/-- Maximum of a list of rationals, `none` on the empty list
(`max(stats['processing_times'])`). -/
def listMaxQ : List ℚ → Option ℚ
  | [] => none
  | x :: xs => maxQStep x (listMaxQ xs)

/-- The report produced by `ImageProcessor.get_processing_report` (floats
modelled as exact rationals; the `round(_, 2/3)` display rounding is
omitted). -/
structure Report where
  total_images : Nat
  processed_images : Nat
  successful_images : Nat
  failed_images : Nat
  success_rate : ℚ
  total_processing_time : ℚ
  average_time_per_image : ℚ
  min_time : ℚ
  max_time : ℚ
  errors : List ErrEntry
deriving DecidableEq, Repr

/-- `ImageProcessor.get_processing_report` over a statistics block. -/
def get_processing_report (st : Stats) : Report :=
  let avg := if st.processing_times = [] then 0
             else st.processing_times.sum / (st.processing_times.length : ℚ)
  { total_images := st.total_images
    processed_images := st.processed_images
    successful_images := st.processed_images - st.failed_images
    failed_images := st.failed_images
    success_rate :=
      ((st.processed_images - st.failed_images : ℕ) : ℚ) * 100 /
        (max st.processed_images 1 : ℚ)
    total_processing_time := st.total_time
    average_time_per_image := avg
    min_time := (listMinQ st.processing_times).getD 0
    max_time := (listMaxQ st.processing_times).getD 0
    errors := st.errors }

/-- `ImageProcessor.process_images_batch`'s statistics collection: outcomes
are folded into the stats in arrival order (`as_completed` order), then the
report is generated.  `avg` in the source divides the sum of the collected
times by their count; here `total_time` is that sum. -/
def process_images_batch_report (total : Nat) (arrivals : List ItemOutcome) :
    Report :=
  get_processing_report (arrivals.foldl update_stats (init_stats total))

/-! ### Basic lemmas about the steps mapping and the transition operations -/

theorem StepsMap.get_set_self (m : StepsMap) (a : Step) (r : StepRecord) :
    (m.set a r).get a = some r := by
  cases a <;> rfl

theorem StepsMap.get_set_ne (m : StepsMap) {a b : Step} (r : StepRecord)
    (h : a ≠ b) : (m.set a r).get b = m.get b := by
  cases a <;> cases b <;> first | rfl | exact absurd rfl h

theorem StepsMap.get_modify_self (m : StepsMap) (a : Step)
    (f : StepRecord → StepRecord) : (m.modify a f).get a = (m.get a).map f := by
  unfold StepsMap.modify
  cases h : m.get a <;> simp [h, StepsMap.get_set_self]

theorem StepsMap.get_modify_ne (m : StepsMap) {a b : Step}
    (f : StepRecord → StepRecord) (h : a ≠ b) :
    (m.modify a f).get b = m.get b := by
  unfold StepsMap.modify
  cases hm : m.get a <;> simp [hm, StepsMap.get_set_ne m _ h]

@[simp] theorem mark_step_running_results (s : PState) (st : Step) :
    (mark_step_running s st).results = s.results := rfl

@[simp] theorem mark_step_skipped_results (s : PState) (st : Step)
    (r : Option String) : (mark_step_skipped s st r).results = s.results := rfl

@[simp] theorem mark_step_failed_results (s : PState) (st : Step) (e : String) :
    (mark_step_failed s st e).results = s.results := rfl

@[simp] theorem mark_step_running_metadata (s : PState) (st : Step) :
    (mark_step_running s st).metadata = s.metadata := rfl

@[simp] theorem mark_step_skipped_metadata (s : PState) (st : Step)
    (r : Option String) : (mark_step_skipped s st r).metadata = s.metadata := rfl

@[simp] theorem mark_step_completed_metadata (s : PState) (st : Step)
    (d : Option StepData) (du : Option Nat) :
    (mark_step_completed s st d du).metadata = s.metadata := by
  unfold mark_step_completed
  cases d <;> rfl

theorem get_step_status_steps_eq {s t : PState} (hst : t.steps = s.steps)
    (b : Step) : get_step_status t b = get_step_status s b := by
  unfold get_step_status
  rw [hst]

theorem get_step_status_update_ne {s t : PState} {a : Step}
    {f : StepRecord → StepRecord} (hst : t.steps = s.steps.modify a f)
    {b : Step} (h : a ≠ b) : get_step_status t b = get_step_status s b := by
  unfold get_step_status
  rw [hst, StepsMap.get_modify_ne s.steps f h]

theorem get_step_status_update_self {s t : PState} {a : Step}
    {f : StepRecord → StepRecord} (hst : t.steps = s.steps.modify a f) :
    get_step_status t a =
      match (s.steps.get a).map f with
      | some r => (statusOfString r.status).getD .pending
      | none => .pending := by
  unfold get_step_status
  rw [hst, StepsMap.get_modify_self]

theorem get_step_status_mark_running_ne (s : PState) {a b : Step} (h : a ≠ b) :
    get_step_status (mark_step_running s a) b = get_step_status s b :=
  get_step_status_update_ne rfl h

theorem get_step_status_mark_skipped_ne (s : PState) {a b : Step}
    (r : Option String) (h : a ≠ b) :
    get_step_status (mark_step_skipped s a r) b = get_step_status s b :=
  get_step_status_update_ne rfl h

theorem get_step_status_mark_failed_ne (s : PState) {a b : Step} (e : String)
    (h : a ≠ b) :
    get_step_status (mark_step_failed s a e) b = get_step_status s b :=
  get_step_status_update_ne rfl h

theorem get_step_status_mark_completed_ne (s : PState) {a b : Step}
    (d : Option StepData) (du : Option Nat) (h : a ≠ b) :
    get_step_status (mark_step_completed s a d du) b = get_step_status s b := by
  cases d with
  | none => exact get_step_status_update_ne rfl h
  | some d =>
      have h1 : (mark_step_completed s a (some d) du).steps
          = (s.steps.modify a (fun r =>
              { r with status := StepStatus.completed.toValue,
                       completed_at := some (),
                       duration := match du with
                                   | some d2 => some d2
                                   | none => r.duration })).modify a
              (fun r => { r with data := some d }) := rfl
      unfold get_step_status
      rw [h1, StepsMap.get_modify_ne _ _ h, StepsMap.get_modify_ne _ _ h]

theorem get_step_status_mark_running_self (s : PState) (a : Step) :
    get_step_status (mark_step_running s a) a =
      if (s.steps.get a).isSome then .running else .pending := by
  rw [get_step_status_update_self rfl]
  cases s.steps.get a <;> simp [statusOfString, StepStatus.toValue]

theorem get_step_status_mark_skipped_self (s : PState) (a : Step)
    (r : Option String) :
    get_step_status (mark_step_skipped s a r) a =
      if (s.steps.get a).isSome then .skipped else .pending := by
  rw [get_step_status_update_self rfl]
  cases s.steps.get a <;> simp [statusOfString, StepStatus.toValue]

theorem get_step_status_mark_failed_self (s : PState) (a : Step) (e : String) :
    get_step_status (mark_step_failed s a e) a =
      if (s.steps.get a).isSome then .failed else .pending := by
  rw [get_step_status_update_self rfl]
  cases s.steps.get a <;> simp [statusOfString, StepStatus.toValue]

theorem get_step_status_mark_completed_self (s : PState) (a : Step)
    (d : Option StepData) (du : Option Nat) :
    get_step_status (mark_step_completed s a d du) a =
      if (s.steps.get a).isSome then .completed else .pending := by
  cases d with
  | none =>
      rw [get_step_status_update_self (t := mark_step_completed s a none du) rfl]
      cases s.steps.get a <;> simp [statusOfString, StepStatus.toValue]
  | some d =>
      have h1 : (mark_step_completed s a (some d) du).steps
          = (s.steps.modify a (fun r =>
              { r with status := StepStatus.completed.toValue,
                       completed_at := some (),
                       duration := match du with
                                   | some d2 => some d2
                                   | none => r.duration })).modify a
              (fun r => { r with data := some d }) := rfl
      unfold get_step_status
      rw [h1, StepsMap.get_modify_self, StepsMap.get_modify_self]
      cases s.steps.get a <;> simp [statusOfString, StepStatus.toValue]

/-! ### The failed-step bookkeeping invariant -/

/-- Every step currently recorded as `failed` appears in
`metadata.failed_steps`. -/
def FailInv (s : PState) : Prop :=
  ∀ st : Step, get_step_status s st = .failed → st ∈ s.metadata.failed_steps

theorem failInv_of_eq {s t : PState} (hsteps : t.steps = s.steps)
    (hmeta : t.metadata.failed_steps = s.metadata.failed_steps)
    (h : FailInv s) : FailInv t := by
  intro st hst
  rw [hmeta]
  exact h st ((get_step_status_steps_eq hsteps st) ▸ hst)

theorem failInv_upd {s : PState} (u : Option Unit) (h : FailInv s) :
    FailInv { s with updated_at := u } :=
  failInv_of_eq rfl rfl h

theorem failInv_mark_running {s : PState} (a : Step) (h : FailInv s) :
    FailInv (mark_step_running s a) := by
  intro st hst
  by_cases hsa : a = st
  · subst hsa
    rw [get_step_status_mark_running_self] at hst
    by_cases hg : (s.steps.get a).isSome <;> simp [hg] at hst
  · rw [get_step_status_mark_running_ne s hsa] at hst
    exact h st hst

theorem failInv_mark_skipped {s : PState} (a : Step) (r : Option String)
    (h : FailInv s) : FailInv (mark_step_skipped s a r) := by
  intro st hst
  by_cases hsa : a = st
  · subst hsa
    rw [get_step_status_mark_skipped_self] at hst
    by_cases hg : (s.steps.get a).isSome <;> simp [hg] at hst
  · rw [get_step_status_mark_skipped_ne s r hsa] at hst
    exact h st hst

theorem failInv_mark_completed {s : PState} (a : Step) (d : Option StepData)
    (du : Option Nat) (h : FailInv s) : FailInv (mark_step_completed s a d du) := by
  intro st hst
  rw [show (mark_step_completed s a d du).metadata = s.metadata from
    mark_step_completed_metadata s a d du]
  by_cases hsa : a = st
  · subst hsa
    rw [get_step_status_mark_completed_self] at hst
    by_cases hg : (s.steps.get a).isSome <;> simp [hg] at hst
  · rw [get_step_status_mark_completed_ne s d du hsa] at hst
    exact h st hst

theorem failInv_mark_failed {s : PState} (a : Step) (e : String)
    (h : FailInv s) : FailInv (mark_step_failed s a e) := by
  intro st hst
  have hmeta : (mark_step_failed s a e).metadata.failed_steps
      = if a ∈ s.metadata.failed_steps then s.metadata.failed_steps
        else s.metadata.failed_steps ++ [a] := rfl
  rw [hmeta]
  by_cases hsa : a = st
  · subst hsa
    by_cases hmem : a ∈ s.metadata.failed_steps <;> simp [hmem]
  · rw [get_step_status_mark_failed_ne s e hsa] at hst
    have := h st hst
    by_cases hmem : a ∈ s.metadata.failed_steps <;> simp [hmem, this]

theorem failInv_mark_pipeline_completed {s : PState} (h : FailInv s) :
    FailInv (mark_pipeline_completed s) :=
  failInv_of_eq rfl rfl h

theorem failInv_create (p : String) : FailInv (create_initial_state p) := by
  intro st hst
  cases st <;> simp [create_initial_state, get_step_status, StepsMap.get,
    initialStepRecord, statusOfString] at hst

/-! ### The invariant is preserved by every step processor -/

theorem failInv_process_ocr (eng : Engines) {s : PState} (b : Bool)
    (h : FailInv s) : FailInv (process_ocr_step eng s b).state := by
  unfold process_ocr_step
  by_cases hc : b && is_step_completed s .ocr_processing
  · simp only [hc, if_true]
    exact failInv_mark_skipped _ _ h
  · simp only [hc, if_false, Bool.false_eq_true]
    cases eng.ocrRes
    · exact failInv_mark_failed _ _ (failInv_mark_running _ h)
    · exact failInv_mark_completed _ _ _ (failInv_mark_running _ h)

theorem failInv_process_image_agent (eng : Engines) {s : PState} (b : Bool)
    (h : FailInv s) : FailInv (process_image_agent_step eng s b).state := by
  unfold process_image_agent_step
  by_cases hc : b && is_step_completed s .image_agent_analysis
  · simp only [hc, if_true]
    exact failInv_mark_skipped _ _ h
  · simp only [hc, if_false, Bool.false_eq_true]
    rcases eng.vlRes with e | (_ | d)
    · exact failInv_mark_failed _ _ (failInv_mark_running _ h)
    · exact failInv_mark_failed _ _ (failInv_mark_running _ h)
    · exact failInv_mark_completed _ _ _ (failInv_mark_running _ h)

theorem failInv_process_text_agent (eng : Engines) {s : PState} (b : Bool)
    (h : FailInv s) : FailInv (process_text_agent_step eng s b).state := by
  unfold process_text_agent_step
  by_cases hc : b && is_step_completed s .text_agent_processing
  · simp only [hc, if_true]
    exact failInv_mark_skipped _ _ h
  · simp only [hc, if_false, Bool.false_eq_true]
    by_cases hb : baseText (mark_step_running s .text_agent_processing) = ""
    · simp only [hb, if_true]
      exact failInv_mark_skipped _ _ (failInv_mark_running _ h)
    · simp only [hb, if_false]
      rcases eng.textRes _ _ with e | (_ | tp)
      · exact failInv_mark_failed _ _ (failInv_mark_running _ h)
      · exact failInv_mark_failed _ _ (failInv_mark_running _ h)
      · exact failInv_mark_completed _ _ _ (failInv_mark_running _ h)

theorem failInv_process_translation (eng : Engines) {s : PState} (b : Bool)
    (h : FailInv s) : FailInv (process_translation_step eng s b).state := by
  unfold process_translation_step
  by_cases hc : b && is_step_completed s .translation
  · simp only [hc, if_true]
    exact failInv_mark_skipped _ _ h
  · simp only [hc, if_false, Bool.false_eq_true]
    rcases (mark_step_running s .translation).results.text_processing with _ | tp
    · exact failInv_mark_skipped _ _ (failInv_mark_running _ h)
    · by_cases hn : (!tp.needTranslation || primaryText tp = "") = true
      · simp only [hn, if_true]
        exact failInv_mark_skipped _ _ (failInv_mark_running _ h)
      · simp only [hn, if_false]
        rcases eng.transRes (primaryText tp) with e | (_ | tr)
        · exact failInv_mark_failed _ _ (failInv_mark_running _ h)
        · exact failInv_mark_failed _ _ (failInv_mark_running _ h)
        · exact failInv_mark_completed _ _ _ (failInv_mark_running _ h)

theorem failInv_process_metadata (eng : Engines) {s : PState} (b : Bool)
    (h : FailInv s) : FailInv (process_metadata_combination_step eng s b).state := by
  unfold process_metadata_combination_step
  simp only [Bool.false_eq_true, if_false]
  rcases eng.combineRes _ _ _ _ _ with e | cm
  · exact failInv_mark_failed _ _ (failInv_mark_running _ h)
  · exact failInv_mark_completed _ _ _ (failInv_mark_running _ h)

/-! ### Concrete fixtures used by witnesses and counterexamples -/

/-- A fully successful engine environment. -/
def engGood : Engines :=
  { ocrRes := .ok { full_text := "hola mundo", total_elements := 2 }
    vlRes := .ok (some { text := "a sign" })
    textRes := fun _ _ => .ok (some
      { needTranslation := true, primary_text := some "hola mundo",
        corrected_text := "hola mundo" })
    transRes := fun _ => .ok (some { rest_tag := 7 })
    combineRes := fun _ _ _ _ _ => .ok { rest_tag := 42 }
    dur := fun _ => 1 }

/-- Engine environment where the text-correction result demands translation
and the translation engine then raises. -/
def engTransFail : Engines :=
  { engGood with transRes := fun _ => .error "connection refused" }

/-- Engine environment where the vision engine returns successfully but with
an empty payload. -/
def engVlEmpty : Engines :=
  { engGood with vlRes := .ok none }

/-- Configuration with every optional step enabled. -/
def cfgAll : PipelineConfig :=
  { enable_ocr := true, enable_image_agent := true,
    enable_text_agent := true, enable_translation := true }

/-- The terminal state of a fully successful item-major pass: every step
record is `completed`. -/
def sDone : PState :=
  (process_single_image cfgAll engGood none "img.png").state

/-- A persisted document with a missing step entry (`ocr_processing`) and a
corrupted status string (`image_agent_analysis`). -/
def badState : PState :=
  { create_initial_state "bad.png" with
    steps :=
      { (create_initial_state "bad.png").steps with
        ocr := none,
        vl := some { initialStepRecord with status := "bogus" } } }

/-- A state whose aggregation step is already `completed`. -/
def sMetaDone : PState :=
  { create_initial_state "meta.png" with
    steps :=
      { (create_initial_state "meta.png").steps with
        meta := some { initialStepRecord with status := "completed" } } }

/-- A state carrying a text-processing result that requires translation. -/
def sNeedsTranslation : PState :=
  { create_initial_state "tr.png" with
    results :=
      { (create_initial_state "tr.png").results with
        text_processing := some
          { needTranslation := true, primary_text := some "hola",
            corrected_text := "hola" } } }

/-- A file system with no persisted document anywhere. -/
def fsMissing : String → Option DocContent := fun _ => none

/-- A file system whose only document is unreadable (truncated/corrupt). -/
def fsCorrupt : String → Option DocContent :=
  fun q => if q = "img.yml" then some .truncated else none

/-- An old persisted record. -/
def sOld : PState := create_initial_state "img.png"

/-- A file system holding the old record at `img.yml`. -/
def fsWithOld : String → Option DocContent :=
  fun q => if q = "img.yml" then some (.yaml sOld) else none

/-- A failed item outcome, key `a.png`. -/
def outA : ItemOutcome :=
  { image := "a.png", success := false, time := 1, error := some "boom" }

/-- A failed item outcome, key `b.png`. -/
def outB : ItemOutcome :=
  { image := "b.png", success := false, time := 2, error := some "crash" }

/-! ### Claim C10 -/

/-- Claim C10: status queries are total.  For every state and step,
`get_step_status` returns `pending` (never raises) when the step entry is
missing or its stored status string is invalid; `is_step_completed`,
`is_step_failed` and `should_skip_step` are then `false` for that step, and
`should_skip_step` is always `false` under `force_reprocess`. -/
theorem claim10_status_queries_total :
    ∀ (s : PState) (st : Step),
      (s.steps.get st = none → get_step_status s st = .pending) ∧
      (∀ r : StepRecord, s.steps.get st = some r →
        statusOfString r.status = none → get_step_status s st = .pending) ∧
      (get_step_status s st = .pending →
        is_step_completed s st = false ∧ is_step_failed s st = false ∧
        should_skip_step s st false = false) ∧
      should_skip_step s st true = false := by
  intro s st
  refine ⟨?_, ?_, ?_, ?_⟩
  · intro h
    simp [get_step_status, h]
  · intro r hr hs
    simp [get_step_status, hr, hs]
  · intro h
    refine ⟨?_, ?_, ?_⟩ <;>
      simp [is_step_completed, is_step_failed, should_skip_step, h]
  · simp [should_skip_step]

/-- Witness for C10 at a concrete document with a missing entry and a
corrupted status string. -/
theorem claim10_witness :
    get_step_status badState .ocr_processing = .pending ∧
    get_step_status badState .image_agent_analysis = .pending ∧
    is_step_completed badState .ocr_processing = false ∧
    should_skip_step badState .image_agent_analysis true = false := by
  have h1 := claim10_status_queries_total badState .ocr_processing
  have h2 := claim10_status_queries_total badState .image_agent_analysis
  refine ⟨h1.1 rfl, h2.2.1 _ rfl rfl, (h1.2.2.1 (h1.1 rfl)).1, h2.2.2.2⟩

/-! ### Claim C7 -/

/-- Claim C7 counterexample: loading a location whose document exists but is
unreadable returns exactly the same `None` as loading a missing location, so
the "absent" result is not distinguishable from a read failure. -/
theorem claim7_counterexample :
    fsCorrupt "img.yml" = some .truncated ∧
    fsMissing "img.yml" = none ∧
    load_state_fs fsCorrupt "img.yml" = load_state_fs fsMissing "img.yml" := by
  exact ⟨rfl, rfl, rfl⟩

/-- Claim C7 (amended): `load_state` returns `None` (not an error) when no
persisted document exists — but a failed read of an existing document is
swallowed and also yields `None`, so the two cases are indistinguishable to
the caller. -/
theorem claim7_load_absent_or_unreadable :
    ∀ (fs : String → Option DocContent) (p : String),
      (fs p = none → load_state_fs fs p = none) ∧
      (fs p = some .truncated → load_state_fs fs p = none) := by
  intro fs p
  constructor <;> intro h <;> simp [load_state_fs, h]

/-- Witness for C7 at concrete file systems. -/
theorem claim7_witness :
    load_state_fs fsMissing "img.yml" = none ∧
    load_state_fs fsCorrupt "img.yml" = none := by
  exact ⟨(claim7_load_absent_or_unreadable fsMissing "img.yml").1 rfl,
    (claim7_load_absent_or_unreadable fsCorrupt "img.yml").2 rfl⟩

/-! ### Claim C6 -/

/-- Claim C6 counterexample: `save_state` truncates the destination file in
place before writing (`open(yaml_path, 'w')` then `yaml.dump`); a crash after
the truncation leaves an observable state that is neither absent, nor the
previously persisted record, nor the new record — the write is not atomic
and not write-to-temp-then-rename. -/
theorem claim6_counterexample :
    fsWithOld "img.yml" = some (.yaml sOld) ∧
    runFsOps fsWithOld
      ((save_state_fs_ops "img.yml" (mark_step_running sOld .ocr_processing)).take 1)
      "img.yml" = some .truncated ∧
    (∀ s : PState, DocContent.truncated ≠ DocContent.yaml s) := by
  refine ⟨rfl, rfl, fun s h => DocContent.noConfusion h⟩

/-- Claim C6 (amended): a save refreshes `updated_at` before any byte is
written — the document content handed to the write carries the new
`updated_at` — and a fully completed save leaves exactly that document; but
the write happens in place (truncate, then write), with no
temp-file-and-rename step. -/
theorem claim6_save_sets_updated_at_before_write :
    ∀ (p : String) (s : PState) (fs : String → Option DocContent),
      save_state_fs_ops p s =
        [.truncateOpen p, .writeAll p { s with updated_at := some () }] ∧
      runFsOps fs (save_state_fs_ops p s) p =
        some (.yaml { s with updated_at := some () }) := by
  intro p s fs
  refine ⟨rfl, ?_⟩
  simp [runFsOps, save_state_fs_ops, applyFsOp]

/-! ### Skip-branch helper lemmas -/

@[simp] theorem baseText_mark_running (s : PState) (st : Step) :
    baseText (mark_step_running s st) = baseText s := rfl

theorem skip_ocr_of_completed (eng : Engines) {s : PState}
    (h : is_step_completed s .ocr_processing = true) :
    process_ocr_step eng s true =
      ⟨true, mark_step_skipped s .ocr_processing (some "Already completed"), []⟩ := by
  unfold process_ocr_step
  simp [h]

theorem skip_image_of_completed (eng : Engines) {s : PState}
    (h : is_step_completed s .image_agent_analysis = true) :
    process_image_agent_step eng s true =
      ⟨true, mark_step_skipped s .image_agent_analysis (some "Already completed"), []⟩ := by
  unfold process_image_agent_step
  simp [h]

theorem skip_text_of_completed (eng : Engines) {s : PState}
    (h : is_step_completed s .text_agent_processing = true) :
    process_text_agent_step eng s true =
      ⟨true, mark_step_skipped s .text_agent_processing (some "Already completed"), []⟩ := by
  unfold process_text_agent_step
  simp [h]

theorem skip_translation_of_completed (eng : Engines) {s : PState}
    (h : is_step_completed s .translation = true) :
    process_translation_step eng s true =
      ⟨true, mark_step_skipped s .translation (some "Already completed"), []⟩ := by
  unfold process_translation_step
  simp [h]

theorem metadata_always_calls_engine (eng : Engines) (s : PState) (b : Bool) :
    (process_metadata_combination_step eng s b).calls = [.combine] := by
  unfold process_metadata_combination_step
  simp only [Bool.false_eq_true, if_false]
  split <;> rfl

/-! ### Claim C5 -/

/-- Claim C5 counterexample: with `skip_if_completed = true` and an
already-`completed` aggregation step record, the aggregation processor does
not transition the step to `skipped` and does invoke its engine (the skip
check in the source is the dead branch `if False:`). -/
theorem claim5_counterexample :
    is_step_completed sMetaDone .metadata_combination = true ∧
    (process_metadata_combination_step engGood sMetaDone true).calls ≠ [] ∧
    get_step_status (process_metadata_combination_step engGood sMetaDone true).state
      .metadata_combination = .completed := by
  decide

/-- Claim C5 (amended): the OCR, vision-analysis, text-correction and
translation processors each skip an already-completed step under
`skip_if_completed` — transitioning it to `skipped` with reason
`Already completed`, performing no engine call, and returning
`(true, state)`; the aggregation processor never takes this path and always
invokes its engine. -/
theorem claim5_skip_if_completed :
    ∀ (eng : Engines) (s : PState),
      (is_step_completed s .ocr_processing = true →
        process_ocr_step eng s true =
          ⟨true, mark_step_skipped s .ocr_processing (some "Already completed"), []⟩) ∧
      (is_step_completed s .image_agent_analysis = true →
        process_image_agent_step eng s true =
          ⟨true, mark_step_skipped s .image_agent_analysis (some "Already completed"), []⟩) ∧
      (is_step_completed s .text_agent_processing = true →
        process_text_agent_step eng s true =
          ⟨true, mark_step_skipped s .text_agent_processing (some "Already completed"), []⟩) ∧
      (is_step_completed s .translation = true →
        process_translation_step eng s true =
          ⟨true, mark_step_skipped s .translation (some "Already completed"), []⟩) ∧
      (process_metadata_combination_step eng s true).calls = [.combine] := by
  intro eng s
  exact ⟨fun h => skip_ocr_of_completed eng h,
    fun h => skip_image_of_completed eng h,
    fun h => skip_text_of_completed eng h,
    fun h => skip_translation_of_completed eng h,
    metadata_always_calls_engine eng s true⟩

/-- Witness for C5 at the terminal state of a successful pass. -/
theorem claim5_witness :
    process_ocr_step engGood sDone true =
      ⟨true, mark_step_skipped sDone .ocr_processing (some "Already completed"), []⟩ ∧
    process_translation_step engGood sDone true =
      ⟨true, mark_step_skipped sDone .translation (some "Already completed"), []⟩ := by
  have h := claim5_skip_if_completed engGood sDone
  exact ⟨h.1 (by decide), h.2.2.2.1 (by decide)⟩

/-! ### Claim C8 -/

/-- Claim C8: in an execution of the translation step that is not skipped as
already completed, the translator engine is invoked only when a prior
text-processing result is present, its needs-translation flag is set, and a
non-empty primary text is available; in every other case the step is marked
`skipped` without any engine call and `(true, state)` is returned. -/
theorem claim8_translation_policy :
    ∀ (eng : Engines) (s : PState),
      is_step_completed s .translation = false →
      (s.results.text_processing = none →
        process_translation_step eng s true =
          ⟨true, mark_step_skipped (mark_step_running s .translation)
            .translation (some "No text processing data"), []⟩) ∧
      (∀ tp : TextProc, s.results.text_processing = some tp →
        (!tp.needTranslation || primaryText tp = "") = true →
        process_translation_step eng s true =
          ⟨true, mark_step_skipped (mark_step_running s .translation)
            .translation (some "Translation not needed"), []⟩) ∧
      (∀ tp : TextProc, s.results.text_processing = some tp →
        tp.needTranslation = true → primaryText tp ≠ "" →
        (process_translation_step eng s true).calls = [.translate]) := by
  intro eng s h
  unfold process_translation_step
  simp only [h, Bool.and_false, Bool.false_eq_true, if_false,
    mark_step_running_results]
  refine ⟨?_, ?_, ?_⟩
  · intro h0
    rw [h0]
  · intro tp htp hcond
    rw [htp]
    simp only [hcond, if_true]
  · intro tp htp hneed hprim
    rw [htp]
    simp only [hneed, hprim, Bool.not_true, decide_eq_true_eq, if_false,
      Bool.false_or, decide_eq_false_iff_not, if_neg]
    split <;> rfl

/-- Witness for C8: a fresh state skips with `No text processing data`; a
state requiring translation reaches the translator engine. -/
theorem claim8_witness :
    process_translation_step engTransFail (create_initial_state "w.png") true =
      ⟨true, mark_step_skipped
        (mark_step_running (create_initial_state "w.png") .translation)
        .translation (some "No text processing data"), []⟩ ∧
    (process_translation_step engTransFail sNeedsTranslation true).calls =
      [.translate] := by
  have h1 := claim8_translation_policy engTransFail
    (create_initial_state "w.png") (by decide)
  have h2 := claim8_translation_policy engTransFail sNeedsTranslation (by decide)
  exact ⟨h1.1 rfl, h2.2.2 _ rfl rfl (by decide)⟩

/-! ### Claim C3 -/

/-- Claim C3 counterexample: the vision engine returns successfully with an
empty payload while its input (the image) is present; the step processor
raises internally and records the step as `failed` — not `skipped`. -/
theorem claim3_counterexample :
    engVlEmpty.vlRes = .ok none ∧
    (process_image_agent_step engVlEmpty (create_initial_state "c.png") true).calls
      = [.vision] ∧
    (process_image_agent_step engVlEmpty (create_initial_state "c.png") true).ok
      = false ∧
    get_step_status
      (process_image_agent_step engVlEmpty (create_initial_state "c.png") true).state
      .image_agent_analysis = .failed := by
  refine ⟨rfl, ?_⟩
  decide

/-- Claim C3 (amended): a step record ends `failed` exactly when the engine
call raised/returned an error or returned successfully with an empty/null
payload (the processor converts the empty-success case into a raised
`... returned no results` error); a missing optional input still yields
`skipped`, never `failed`. -/
theorem claim3_step_failure_semantics :
    ∀ (eng : Engines) (s : PState),
      (is_step_completed s .image_agent_analysis = false →
        (eng.vlRes = .ok none →
          (process_image_agent_step eng s true).ok = false ∧
          (process_image_agent_step eng s true).state =
            mark_step_failed (mark_step_running s .image_agent_analysis)
              .image_agent_analysis "Image agent returned no results") ∧
        (∀ e : String, eng.vlRes = .error e →
          (process_image_agent_step eng s true).ok = false ∧
          (process_image_agent_step eng s true).state =
            mark_step_failed (mark_step_running s .image_agent_analysis)
              .image_agent_analysis e) ∧
        (∀ d : VlData, eng.vlRes = .ok (some d) →
          (process_image_agent_step eng s true).ok = true)) ∧
      (is_step_completed s .text_agent_processing = false →
        (baseText s = "" →
          process_text_agent_step eng s true =
            ⟨true, mark_step_skipped (mark_step_running s .text_agent_processing)
              .text_agent_processing (some "No text available"), []⟩) ∧
        (baseText s ≠ "" →
          (∀ e : String, eng.textRes (baseText s) s.results.vl_model_data = .error e →
            (process_text_agent_step eng s true).ok = false ∧
            (process_text_agent_step eng s true).state =
              mark_step_failed (mark_step_running s .text_agent_processing)
                .text_agent_processing e) ∧
          (eng.textRes (baseText s) s.results.vl_model_data = .ok none →
            (process_text_agent_step eng s true).ok = false ∧
            (process_text_agent_step eng s true).state =
              mark_step_failed (mark_step_running s .text_agent_processing)
                .text_agent_processing "Text agent returned no results") ∧
          (∀ tp : TextProc,
            eng.textRes (baseText s) s.results.vl_model_data = .ok (some tp) →
            (process_text_agent_step eng s true).ok = true))) := by
  intro eng s
  constructor
  · intro h
    unfold process_image_agent_step
    simp only [h, Bool.and_false, Bool.false_eq_true, if_false]
    refine ⟨?_, ?_, ?_⟩
    · intro hvl
      rw [hvl]
      exact ⟨rfl, rfl⟩
    · intro e hvl
      rw [hvl]
      exact ⟨rfl, rfl⟩
    · intro d hvl
      rw [hvl]
  · intro h
    unfold process_text_agent_step
    simp only [h, Bool.and_false, Bool.false_eq_true, if_false,
      baseText_mark_running, mark_step_running_results]
    constructor
    · intro hb
      simp only [hb, if_true]
    · intro hb
      simp only [hb, if_false]
      refine ⟨?_, ?_, ?_⟩
      · intro e hres
        rw [hres]
        exact ⟨rfl, rfl⟩
      · intro hres
        rw [hres]
        exact ⟨rfl, rfl⟩
      · intro tp hres
        rw [hres]

/-- Witness for C3: an empty-payload vision success is recorded failed; a
text step with no text input is recorded skipped. -/
theorem claim3_witness :
    (process_image_agent_step engVlEmpty (create_initial_state "w2.png") true).ok
      = false ∧
    process_text_agent_step engVlEmpty (create_initial_state "w2.png") true =
      ⟨true, mark_step_skipped
        (mark_step_running (create_initial_state "w2.png") .text_agent_processing)
        .text_agent_processing (some "No text available"), []⟩ := by
  have h := claim3_step_failure_semantics engVlEmpty (create_initial_state "w2.png")
  exact ⟨((h.1 (by decide)).1 rfl).1, (h.2 (by decide)).1 (by decide)⟩

/-! ### Claim C9: batch-report determinism -/

/-- The error entry contributed by one collected outcome, if any. -/
def errOf (o : ItemOutcome) : Option ErrEntry :=
  if o.success then none
  else
    match o.error with
    | some e => if e = "" then none else some ⟨o.image, e, o.time⟩
    | none => none

theorem update_stats_total_images (st : Stats) (o : ItemOutcome) :
    (update_stats st o).total_images = st.total_images := by
  unfold update_stats
  split
  · rfl
  · split <;> first | rfl | (split <;> rfl)

theorem update_stats_processed (st : Stats) (o : ItemOutcome) :
    (update_stats st o).processed_images = st.processed_images + 1 := by
  unfold update_stats
  split
  · rfl
  · split <;> first | rfl | (split <;> rfl)

theorem update_stats_failed (st : Stats) (o : ItemOutcome) :
    (update_stats st o).failed_images =
      st.failed_images + (if o.success then 0 else 1) := by
  unfold update_stats
  split <;> rename_i hs
  · simp [hs]
  · simp only [Bool.not_eq_true] at hs
    split <;> simp [hs]
    split <;> simp

theorem update_stats_total_time (st : Stats) (o : ItemOutcome) :
    (update_stats st o).total_time = st.total_time + o.time := by
  unfold update_stats
  split
  · rfl
  · split <;> first | rfl | (split <;> rfl)

theorem update_stats_times (st : Stats) (o : ItemOutcome) :
    (update_stats st o).processing_times = st.processing_times ++ [o.time] := by
  unfold update_stats
  split
  · rfl
  · split <;> first | rfl | (split <;> rfl)

theorem update_stats_errors (st : Stats) (o : ItemOutcome) :
    (update_stats st o).errors = st.errors ++ (errOf o).toList := by
  unfold update_stats errOf
  split <;> rename_i hs
  · simp [hs]
  · simp only [Bool.not_eq_true] at hs
    split <;> simp [hs]
    split <;> simp

theorem foldl_stats_total_images (l : List ItemOutcome) (st : Stats) :
    (l.foldl update_stats st).total_images = st.total_images := by
  induction l generalizing st with
  | nil => rfl
  | cons o l ih => rw [List.foldl_cons, ih, update_stats_total_images]

theorem foldl_stats_processed (l : List ItemOutcome) (st : Stats) :
    (l.foldl update_stats st).processed_images =
      st.processed_images + l.length := by
  induction l generalizing st with
  | nil => rfl
  | cons o l ih =>
      rw [List.foldl_cons, ih, update_stats_processed, List.length_cons]
      omega

theorem foldl_stats_failed (l : List ItemOutcome) (st : Stats) :
    (l.foldl update_stats st).failed_images =
      st.failed_images + l.countP (fun o => !o.success) := by
  induction l generalizing st with
  | nil => rfl
  | cons o l ih =>
      rw [List.foldl_cons, ih, update_stats_failed, List.countP_cons]
      cases h : o.success <;> simp [h] <;> omega

theorem foldl_stats_total_time (l : List ItemOutcome) (st : Stats) :
    (l.foldl update_stats st).total_time =
      st.total_time + (l.map ItemOutcome.time).sum := by
  induction l generalizing st with
  | nil => simp
  | cons o l ih =>
      rw [List.foldl_cons, ih, update_stats_total_time, List.map_cons,
        List.sum_cons]
      ring

theorem foldl_stats_times (l : List ItemOutcome) (st : Stats) :
    (l.foldl update_stats st).processing_times =
      st.processing_times ++ l.map ItemOutcome.time := by
  induction l generalizing st with
  | nil => simp
  | cons o l ih =>
      rw [List.foldl_cons, ih, update_stats_times, List.map_cons,
        List.append_assoc, List.singleton_append]

theorem foldl_stats_errors (l : List ItemOutcome) (st : Stats) :
    (l.foldl update_stats st).errors = st.errors ++ l.filterMap errOf := by
  induction l generalizing st with
  | nil => simp
  | cons o l ih =>
      rw [List.foldl_cons, ih, update_stats_errors, List.filterMap_cons]
      cases h : errOf o <;> simp [h]

theorem listMinQ_perm {l1 l2 : List ℚ} (h : l1.Perm l2) :
    listMinQ l1 = listMinQ l2 := by
  induction h with
  | nil => rfl
  | cons x _ ih => simp [listMinQ, ih]
  | swap x y l =>
      show minQStep y (minQStep x (listMinQ l)) = minQStep x (minQStep y (listMinQ l))
      cases listMinQ l <;> simp [minQStep, min_comm, min_left_comm]
  | trans _ _ ih1 ih2 => exact ih1.trans ih2

theorem listMaxQ_perm {l1 l2 : List ℚ} (h : l1.Perm l2) :
    listMaxQ l1 = listMaxQ l2 := by
  induction h with
  | nil => rfl
  | cons x _ ih => simp [listMaxQ, ih]
  | swap x y l =>
      show maxQStep y (maxQStep x (listMaxQ l)) = maxQStep x (maxQStep y (listMaxQ l))
      cases listMaxQ l <;> simp [maxQStep, max_comm, max_left_comm]
  | trans _ _ ih1 ih2 => exact ih1.trans ih2

/-- Claim C9 counterexample: two runs collecting the same two failed item
results in different arrival orders produce different reports (the report's
`errors` list follows arrival order; nothing is sorted by item key). -/
theorem claim9_counterexample :
    process_images_batch_report 2 [outA, outB] ≠
      process_images_batch_report 2 [outB, outA] ∧
    (process_images_batch_report 2 [outA, outB]).errors =
      [⟨"a.png", "boom", 1⟩, ⟨"b.png", "crash", 2⟩] ∧
    (process_images_batch_report 2 [outB, outA]).errors =
      [⟨"b.png", "crash", 2⟩, ⟨"a.png", "boom", 1⟩] := by
  refine ⟨?_, by decide, by decide⟩
  intro h
  have := congrArg Report.errors h
  simp [process_images_batch_report, get_processing_report, init_stats,
    update_stats, outA, outB] at this

/-- Claim C9 (amended): the batch report is a deterministic function of the
multiset of collected per-item results for every field except `errors`: two
runs collecting the same results in any arrival order agree on all summary
counts and timing aggregates, and their `errors` lists are permutations of
each other (collected in arrival order — the source performs no sort by
item key). -/
theorem claim9_report_deterministic_up_to_error_order :
    ∀ (total : Nat) (l1 l2 : List ItemOutcome), l1.Perm l2 →
      (process_images_batch_report total l1).total_images =
        (process_images_batch_report total l2).total_images ∧
      (process_images_batch_report total l1).processed_images =
        (process_images_batch_report total l2).processed_images ∧
      (process_images_batch_report total l1).successful_images =
        (process_images_batch_report total l2).successful_images ∧
      (process_images_batch_report total l1).failed_images =
        (process_images_batch_report total l2).failed_images ∧
      (process_images_batch_report total l1).success_rate =
        (process_images_batch_report total l2).success_rate ∧
      (process_images_batch_report total l1).total_processing_time =
        (process_images_batch_report total l2).total_processing_time ∧
      (process_images_batch_report total l1).average_time_per_image =
        (process_images_batch_report total l2).average_time_per_image ∧
      (process_images_batch_report total l1).min_time =
        (process_images_batch_report total l2).min_time ∧
      (process_images_batch_report total l1).max_time =
        (process_images_batch_report total l2).max_time ∧
      (process_images_batch_report total l1).errors.Perm
        (process_images_batch_report total l2).errors := by
  intro total l1 l2 h
  have hmap : (l1.map ItemOutcome.time).Perm (l2.map ItemOutcome.time) :=
    h.map ItemOutcome.time
  have times1 : (l1.foldl update_stats (init_stats total)).processing_times
      = l1.map ItemOutcome.time := by
    rw [foldl_stats_times]
    rfl
  have times2 : (l2.foldl update_stats (init_stats total)).processing_times
      = l2.map ItemOutcome.time := by
    rw [foldl_stats_times]
    rfl
  have err1 : (l1.foldl update_stats (init_stats total)).errors
      = l1.filterMap errOf := by
    rw [foldl_stats_errors]
    rfl
  have err2 : (l2.foldl update_stats (init_stats total)).errors
      = l2.filterMap errOf := by
    rw [foldl_stats_errors]
    rfl
  unfold process_images_batch_report
  refine ⟨?_, ?_, ?_, ?_, ?_, ?_, ?_, ?_, ?_, ?_⟩
  · show (l1.foldl update_stats (init_stats total)).total_images
      = (l2.foldl update_stats (init_stats total)).total_images
    rw [foldl_stats_total_images, foldl_stats_total_images]
  · show (l1.foldl update_stats (init_stats total)).processed_images
      = (l2.foldl update_stats (init_stats total)).processed_images
    rw [foldl_stats_processed, foldl_stats_processed, h.length_eq]
  · show (l1.foldl update_stats (init_stats total)).processed_images
        - (l1.foldl update_stats (init_stats total)).failed_images
      = (l2.foldl update_stats (init_stats total)).processed_images
        - (l2.foldl update_stats (init_stats total)).failed_images
    rw [foldl_stats_processed, foldl_stats_processed, foldl_stats_failed,
      foldl_stats_failed, h.length_eq, h.countP_eq]
  · show (l1.foldl update_stats (init_stats total)).failed_images
      = (l2.foldl update_stats (init_stats total)).failed_images
    rw [foldl_stats_failed, foldl_stats_failed, h.countP_eq]
  · show (((l1.foldl update_stats (init_stats total)).processed_images
        - (l1.foldl update_stats (init_stats total)).failed_images : ℕ) : ℚ) * 100
        / (max (l1.foldl update_stats (init_stats total)).processed_images 1 : ℚ)
      = (((l2.foldl update_stats (init_stats total)).processed_images
        - (l2.foldl update_stats (init_stats total)).failed_images : ℕ) : ℚ) * 100
        / (max (l2.foldl update_stats (init_stats total)).processed_images 1 : ℚ)
    rw [foldl_stats_processed, foldl_stats_processed, foldl_stats_failed,
      foldl_stats_failed, h.length_eq, h.countP_eq]
  · show (l1.foldl update_stats (init_stats total)).total_time
      = (l2.foldl update_stats (init_stats total)).total_time
    rw [foldl_stats_total_time, foldl_stats_total_time, hmap.sum_eq]
  · show (if (l1.foldl update_stats (init_stats total)).processing_times = []
        then (0 : ℚ)
        else (l1.foldl update_stats (init_stats total)).processing_times.sum
          / ((l1.foldl update_stats (init_stats total)).processing_times.length : ℚ))
      = (if (l2.foldl update_stats (init_stats total)).processing_times = []
        then (0 : ℚ)
        else (l2.foldl update_stats (init_stats total)).processing_times.sum
          / ((l2.foldl update_stats (init_stats total)).processing_times.length : ℚ))
    rw [times1, times2]
    by_cases h1 : l1.map ItemOutcome.time = []
    · have h2 : l2.map ItemOutcome.time = [] := by
        have hl := hmap.length_eq
        rw [h1] at hl
        exact List.eq_nil_of_length_eq_zero hl.symm
      simp [h1, h2]
    · have h2 : ¬ l2.map ItemOutcome.time = [] := by
        intro h2
        exact h1 (List.eq_nil_of_length_eq_zero
          (by rw [hmap.length_eq, h2]; rfl))
      simp only [h1, h2, if_neg]
      rw [hmap.sum_eq, hmap.length_eq]
  · show (listMinQ (l1.foldl update_stats (init_stats total)).processing_times).getD 0
      = (listMinQ (l2.foldl update_stats (init_stats total)).processing_times).getD 0
    rw [times1, times2, listMinQ_perm hmap]
  · show (listMaxQ (l1.foldl update_stats (init_stats total)).processing_times).getD 0
      = (listMaxQ (l2.foldl update_stats (init_stats total)).processing_times).getD 0
    rw [times1, times2, listMaxQ_perm hmap]
  · show ((l1.foldl update_stats (init_stats total)).errors).Perm
      ((l2.foldl update_stats (init_stats total)).errors)
    rw [err1, err2]
    exact h.filterMap errOf

/-- Witness for C9 at two concrete arrival orders of the same result set. -/
theorem claim9_witness :
    (process_images_batch_report 2 [outA, outB]).failed_images =
      (process_images_batch_report 2 [outB, outA]).failed_images ∧
    (process_images_batch_report 2 [outA, outB]).errors.Perm
      (process_images_batch_report 2 [outB, outA]).errors := by
  have hp := claim9_report_deterministic_up_to_error_order 2 [outA, outB]
    [outB, outA] (List.Perm.swap outB outA [])
  exact ⟨hp.2.2.2.1, hp.2.2.2.2.2.2.2.2.2⟩

/-! ### Stage-level lemmas for the item-major pass -/

theorem is_step_completed_save (st : Option PState) (s : PState) (b : Step) :
    is_step_completed (save_state st s).2 b = is_step_completed s b := rfl

theorem is_step_completed_mark_skipped_ne {a b : Step} (hne : a ≠ b)
    (s : PState) (rs : Option String) :
    is_step_completed (mark_step_skipped s a rs) b = is_step_completed s b := by
  unfold is_step_completed
  rw [get_step_status_mark_skipped_ne s rs hne]

theorem ocr_stage_skip (cfg : PipelineConfig) (eng : Engines) (pr : PassResult)
    (h : is_step_completed pr.state .ocr_processing = true) :
    (ocr_stage cfg eng pr).calls = pr.calls ∧
    (ocr_stage cfg eng pr).state.results = pr.state.results ∧
    ∀ b : Step, Step.ocr_processing ≠ b →
      is_step_completed (ocr_stage cfg eng pr).state b =
        is_step_completed pr.state b := by
  unfold ocr_stage
  split
  · rw [skip_ocr_of_completed eng h]
    refine ⟨by simp, rfl, ?_⟩
    intro b hb
    rw [show (PassResult.mk (pr.success && true)
        (save_state pr.store (mark_step_skipped pr.state .ocr_processing
          (some "Already completed"))).2
        (save_state pr.store (mark_step_skipped pr.state .ocr_processing
          (some "Already completed"))).1 (pr.calls ++ [])).state
      = (save_state pr.store (mark_step_skipped pr.state .ocr_processing
          (some "Already completed"))).2 from rfl]
    rw [is_step_completed_save, is_step_completed_mark_skipped_ne hb]
  · exact ⟨rfl, rfl, fun b _ => rfl⟩

theorem image_agent_stage_skip (cfg : PipelineConfig) (eng : Engines)
    (pr : PassResult)
    (h : is_step_completed pr.state .image_agent_analysis = true) :
    (image_agent_stage cfg eng pr).calls = pr.calls ∧
    (image_agent_stage cfg eng pr).state.results = pr.state.results ∧
    ∀ b : Step, Step.image_agent_analysis ≠ b →
      is_step_completed (image_agent_stage cfg eng pr).state b =
        is_step_completed pr.state b := by
  unfold image_agent_stage
  split
  · rw [skip_image_of_completed eng h]
    refine ⟨by simp, rfl, ?_⟩
    intro b hb
    rw [show (PassResult.mk (pr.success && true)
        (save_state pr.store (mark_step_skipped pr.state .image_agent_analysis
          (some "Already completed"))).2
        (save_state pr.store (mark_step_skipped pr.state .image_agent_analysis
          (some "Already completed"))).1 (pr.calls ++ [])).state
      = (save_state pr.store (mark_step_skipped pr.state .image_agent_analysis
          (some "Already completed"))).2 from rfl]
    rw [is_step_completed_save, is_step_completed_mark_skipped_ne hb]
  · exact ⟨rfl, rfl, fun b _ => rfl⟩

theorem text_agent_stage_skip (cfg : PipelineConfig) (eng : Engines)
    (pr : PassResult)
    (h : is_step_completed pr.state .text_agent_processing = true) :
    (text_agent_stage cfg eng pr).calls = pr.calls ∧
    (text_agent_stage cfg eng pr).state.results = pr.state.results ∧
    ∀ b : Step, Step.text_agent_processing ≠ b →
      is_step_completed (text_agent_stage cfg eng pr).state b =
        is_step_completed pr.state b := by
  unfold text_agent_stage
  split
  · rw [skip_text_of_completed eng h]
    refine ⟨by simp, rfl, ?_⟩
    intro b hb
    rw [show (PassResult.mk (pr.success && true)
        (save_state pr.store (mark_step_skipped pr.state .text_agent_processing
          (some "Already completed"))).2
        (save_state pr.store (mark_step_skipped pr.state .text_agent_processing
          (some "Already completed"))).1 (pr.calls ++ [])).state
      = (save_state pr.store (mark_step_skipped pr.state .text_agent_processing
          (some "Already completed"))).2 from rfl]
    rw [is_step_completed_save, is_step_completed_mark_skipped_ne hb]
  · exact ⟨rfl, rfl, fun b _ => rfl⟩

theorem translation_stage_skip (cfg : PipelineConfig) (eng : Engines)
    (pr : PassResult) (h : is_step_completed pr.state .translation = true) :
    (translation_stage cfg eng pr).calls = pr.calls ∧
    (translation_stage cfg eng pr).state.results = pr.state.results ∧
    ∀ b : Step, Step.translation ≠ b →
      is_step_completed (translation_stage cfg eng pr).state b =
        is_step_completed pr.state b := by
  unfold translation_stage
  split
  · rw [skip_translation_of_completed eng h]
    refine ⟨by simp, rfl, ?_⟩
    intro b hb
    rw [show (PassResult.mk (pr.success && true)
        (save_state pr.store (mark_step_skipped pr.state .translation
          (some "Already completed"))).2
        (save_state pr.store (mark_step_skipped pr.state .translation
          (some "Already completed"))).1 (pr.calls ++ [])).state
      = (save_state pr.store (mark_step_skipped pr.state .translation
          (some "Already completed"))).2 from rfl]
    rw [is_step_completed_save, is_step_completed_mark_skipped_ne hb]
  · exact ⟨rfl, rfl, fun b _ => rfl⟩

theorem metadata_stage_calls (eng : Engines) (pr : PassResult) :
    (metadata_stage eng pr).calls = pr.calls ++ [.combine] := by
  show pr.calls ++ (process_metadata_combination_step eng pr.state true).calls
    = pr.calls ++ [.combine]
  rw [metadata_always_calls_engine]

theorem metadata_step_results_fields (eng : Engines) (s : PState) (b : Bool) :
    (process_metadata_combination_step eng s b).state.results.ocr_data
      = s.results.ocr_data ∧
    (process_metadata_combination_step eng s b).state.results.vl_model_data
      = s.results.vl_model_data ∧
    (process_metadata_combination_step eng s b).state.results.text_processing
      = s.results.text_processing ∧
    (process_metadata_combination_step eng s b).state.results.translation_result
      = s.results.translation_result := by
  unfold process_metadata_combination_step
  simp only [Bool.false_eq_true, if_false]
  split <;> exact ⟨rfl, rfl, rfl, rfl⟩

theorem metadata_stage_results (eng : Engines) (pr : PassResult) :
    (metadata_stage eng pr).state.results.ocr_data
      = pr.state.results.ocr_data ∧
    (metadata_stage eng pr).state.results.vl_model_data
      = pr.state.results.vl_model_data ∧
    (metadata_stage eng pr).state.results.text_processing
      = pr.state.results.text_processing ∧
    (metadata_stage eng pr).state.results.translation_result
      = pr.state.results.translation_result :=
  metadata_step_results_fields eng pr.state true

/-! ### Claim C4 -/

/-- Claim C4 counterexample: over a persisted state with
`overall_status == completed`, re-running item-major orchestration with
`skip_if_completed` still performs an engine call (the aggregation engine is
always invoked), so the number of engine calls is not zero. -/
theorem claim4_counterexample :
    sDone.overall_status = "completed" ∧
    (process_single_image cfgAll engGood (some sDone) "img.png").calls ≠ [] := by
  constructor
  · decide
  · decide

/-- Claim C4 (amended): re-running item-major orchestration over an item
whose four engine-backed steps are all `completed`, with
`skip_if_completed = true`, performs no OCR, vision, text or translation
engine call — only the aggregation engine is invoked (exactly once, since
its skip check is dead code) — and every `results` entry except
`combined_metadata` is left unchanged. -/
theorem claim4_rerun_only_aggregation :
    ∀ (cfg : PipelineConfig) (eng : Engines) (s : PState) (p : String),
      is_step_completed s .ocr_processing = true →
      is_step_completed s .image_agent_analysis = true →
      is_step_completed s .text_agent_processing = true →
      is_step_completed s .translation = true →
      (process_single_image cfg eng (some s) p).calls = [.combine] ∧
      (process_single_image cfg eng (some s) p).state.results.ocr_data
        = s.results.ocr_data ∧
      (process_single_image cfg eng (some s) p).state.results.vl_model_data
        = s.results.vl_model_data ∧
      (process_single_image cfg eng (some s) p).state.results.text_processing
        = s.results.text_processing ∧
      (process_single_image cfg eng (some s) p).state.results.translation_result
        = s.results.translation_result := by
  intro cfg eng s p h1 h2 h3 h4
  have o1 := ocr_stage_skip cfg eng ⟨true, s, some s, []⟩ h1
  have o2 := image_agent_stage_skip cfg eng
    (ocr_stage cfg eng ⟨true, s, some s, []⟩)
    (by rw [o1.2.2 _ (by decide)]; exact h2)
  have o3 := text_agent_stage_skip cfg eng
    (image_agent_stage cfg eng (ocr_stage cfg eng ⟨true, s, some s, []⟩))
    (by rw [o2.2.2 _ (by decide), o1.2.2 _ (by decide)]; exact h3)
  have o4 := translation_stage_skip cfg eng
    (text_agent_stage cfg eng
      (image_agent_stage cfg eng (ocr_stage cfg eng ⟨true, s, some s, []⟩)))
    (by rw [o3.2.2 _ (by decide), o2.2.2 _ (by decide), o1.2.2 _ (by decide)]
        exact h4)
  have mc := metadata_stage_calls eng
    (translation_stage cfg eng (text_agent_stage cfg eng
      (image_agent_stage cfg eng (ocr_stage cfg eng ⟨true, s, some s, []⟩))))
  have m := metadata_stage_results eng
    (translation_stage cfg eng (text_agent_stage cfg eng
      (image_agent_stage cfg eng (ocr_stage cfg eng ⟨true, s, some s, []⟩))))
  unfold process_single_image
  rw [show load_or_create (some s) p = s from rfl]
  refine ⟨?_, ?_, ?_, ?_, ?_⟩
  · rw [mc, o4.1, o3.1, o2.1, o1.1]
    rfl
  · rw [m.1, o4.2.1, o3.2.1, o2.2.1, o1.2.1]
  · rw [m.2.1, o4.2.1, o3.2.1, o2.2.1, o1.2.1]
  · rw [m.2.2.1, o4.2.1, o3.2.1, o2.2.1, o1.2.1]
  · rw [m.2.2.2, o4.2.1, o3.2.1, o2.2.1, o1.2.1]

/-- Witness for C4 at a concrete fully-completed state. -/
theorem claim4_witness :
    (process_single_image cfgAll engGood (some sDone) "img.png").calls
      = [.combine] ∧
    (process_single_image cfgAll engGood (some sDone) "img.png").state.results.ocr_data
      = sDone.results.ocr_data := by
  have h := claim4_rerun_only_aggregation cfgAll engGood sDone "img.png"
    (by decide) (by decide) (by decide) (by decide)
  exact ⟨h.1, h.2.1⟩

/-! ### Claim C1 -/

theorem failInv_ocr_stage (cfg : PipelineConfig) (eng : Engines)
    {pr : PassResult} (h : FailInv pr.state) :
    FailInv (ocr_stage cfg eng pr).state := by
  unfold ocr_stage
  split
  · exact failInv_of_eq rfl rfl (failInv_process_ocr eng true h)
  · exact h

theorem failInv_image_agent_stage (cfg : PipelineConfig) (eng : Engines)
    {pr : PassResult} (h : FailInv pr.state) :
    FailInv (image_agent_stage cfg eng pr).state := by
  unfold image_agent_stage
  split
  · exact failInv_of_eq rfl rfl (failInv_process_image_agent eng true h)
  · exact h

theorem failInv_text_agent_stage (cfg : PipelineConfig) (eng : Engines)
    {pr : PassResult} (h : FailInv pr.state) :
    FailInv (text_agent_stage cfg eng pr).state := by
  unfold text_agent_stage
  split
  · exact failInv_of_eq rfl rfl (failInv_process_text_agent eng true h)
  · exact h

theorem failInv_translation_stage (cfg : PipelineConfig) (eng : Engines)
    {pr : PassResult} (h : FailInv pr.state) :
    FailInv (translation_stage cfg eng pr).state := by
  unfold translation_stage
  split
  · exact failInv_of_eq rfl rfl (failInv_process_translation eng true h)
  · exact h

theorem failInv_metadata_stage (eng : Engines) {pr : PassResult}
    (h : FailInv pr.state) : FailInv (metadata_stage eng pr).state :=
  failInv_of_eq rfl rfl (failInv_mark_pipeline_completed
    (failInv_of_eq rfl rfl (failInv_process_metadata eng true h)))

/-- Claim C1 counterexample: the text-correction result demands translation
and the translation engine then fails; at the end of the item-major pass the
translation step record is `failed` and was never reset, yet the item's
persisted `overall_status` is `completed` — `mark_pipeline_completed` is
applied unconditionally after the aggregation step and overwrites the
`failed` overall status. -/
theorem claim1_counterexample :
    get_step_status (process_single_image cfgAll engTransFail none "img.png").state
      .translation = .failed ∧
    (process_single_image cfgAll engTransFail none "img.png").state.overall_status
      = "completed" ∧
    (process_single_image cfgAll engTransFail none "img.png").success = false := by
  refine ⟨?_, rfl, ?_⟩ <;> decide

/-- Claim C1 (amended): at the end of an orchestration pass the item's
`overall_status` is always `completed` — even when some step failed and was
not reset — because the pass unconditionally marks the pipeline completed
after the aggregation step; a step failure is still recorded durably: every
step whose record ends `failed` is listed in `metadata.failed_steps`
(provided the loaded state already satisfied that bookkeeping invariant, as
every state produced by this core does). -/
theorem claim1_overall_status_after_pass :
    ∀ (cfg : PipelineConfig) (eng : Engines) (store : Option PState)
      (p : String),
      FailInv (load_or_create store p) →
      (process_single_image cfg eng store p).state.overall_status
        = "completed" ∧
      FailInv (process_single_image cfg eng store p).state := by
  intro cfg eng store p h0
  refine ⟨rfl, ?_⟩
  unfold process_single_image
  exact failInv_metadata_stage eng
    (failInv_translation_stage cfg eng
      (failInv_text_agent_stage cfg eng
        (failInv_image_agent_stage cfg eng
          (failInv_ocr_stage cfg eng h0))))

/-- Witness for C1 at a run whose translation engine fails. -/
theorem claim1_witness :
    (process_single_image cfgAll engTransFail none "img.png").state.overall_status
      = "completed" ∧
    FailInv (process_single_image cfgAll engTransFail none "img.png").state := by
  exact claim1_overall_status_after_pass cfgAll engTransFail none "img.png"
    (by intro st hst; revert hst; cases st <;> decide)

/-! ### Claim C2 -/

/-- Claim C2: per-item orchestrator equivalence.  For every configuration,
engine environment (identical engine responses, including durations), and
prior persisted document (so this also covers resuming one strategy's state
under the other), the item-major pass and the step-major pass leave exactly
the same terminal persisted Pipeline State.  Wall-clock timestamps are
modelled as presence flags, so this equality is "identical excluding
timestamp values", exactly as the claim qualifies it. -/
theorem claim2_orchestrator_equivalence :
    ∀ (cfg : PipelineConfig) (eng : Engines) (store : Option PState)
      (p : String),
      (process_single_image cfg eng store p).store =
        process_images_batch_by_steps_single cfg eng store p := by
  intro cfg eng store p
  rcases cfg with ⟨ea, eb, ec, ed⟩
  cases store <;> cases ea <;> cases eb <;> cases ec <;> cases ed <;> rfl

end CaptionExtractor
